import Mathlib

set_option maxRecDepth 100000

/-!
Verification development for an expense-tracking pipeline.

The embedded program merges credit-card transaction exports
(`merge_transactions.py`) and repairs/parses extraction output
(`extract_chase_transactions.py`).  Pure functions of the source are
translated into executable Lean definitions; pandas column operations,
which are all row-wise in the source, are modelled as per-row functions
mapped over lists of records.

Python's `str.upper` on the ASCII merchant strings is modelled by
`Char.toUpper`; pandas `Series.str.contains(pat)` defaults to regular
expression search, which is modelled by a small matcher for exactly the
regex features occurring in the source's patterns (literal characters,
`.`, and the `*` / `+` quantifiers on a single character); the
`regex=False` calls are modelled by literal substring containment.
Monetary amounts are modelled as exact rationals: every amount in the
source only ever meets the comparisons `< 30` / `>= 30`, and a float
compares to the integer 30 exactly as the rational it denotes does.
-/

/-! ## Characters and substring machinery -/

/-- The double-quote character. -/
def quoteC : Char := Char.ofNat 34

/-- The backslash character. -/
def backslashC : Char := Char.ofNat 92

/-- The opening curly bracket character. -/
def lbraceC : Char := Char.ofNat 123

/-- The closing curly bracket character. -/
def rbraceC : Char := Char.ofNat 125

/-- Uppercased character list of a string; models Python `s.upper()` on
the ASCII data handled by the pipeline. -/
def upperChars (s : String) : List Char := s.data.map Char.toUpper

/-- Boolean prefix test on character lists. -/
def isPrefixB : List Char → List Char → Bool
  | [], _ => true
  | _ :: _, [] => false
  | p :: ps, d :: ds => p == d && isPrefixB ps ds

/-- Boolean substring containment: `containsSub pat text` is true when
`pat` occurs contiguously inside `text`. -/
def containsSub (pat : List Char) : List Char → Bool
  | [] => isPrefixB pat []
  | d :: ds => isPrefixB pat (d :: ds) || containsSub pat ds

/-! ## A matcher for the regular expressions used by the source

`pandas.Series.str.contains` defaults to `regex=True`.  The patterns in
the source use only literal characters, `.` (any character), `|` (one
top-level alternation, split at its use site), and `*` / `+` applied to
a single character, so token-level matching suffices. -/

/-- Regex tokens: a literal character, any character, or a starred or
plussed single character. -/
inductive RTok where
  | lit : Char → RTok
  | dot : RTok
  | star : Char → RTok
  | plus : Char → RTok
deriving DecidableEq, Repr

/-- Compile a pattern string (as characters) to tokens, interpreting
`*` and `+` as quantifiers on the preceding character and `.` as any
character, as Python's `re` does for the source's patterns. -/
def toToks : List Char → List RTok
  | [] => []
  | c :: '*' :: rest => RTok.star c :: toToks rest
  | c :: '+' :: rest => RTok.plus c :: toToks rest
  | '.' :: rest => RTok.dot :: toToks rest
  | c :: rest => RTok.lit c :: toToks rest

/-- All suffixes of `ds` reachable by deleting zero or more leading
copies of `c`; used to implement backtracking for `star`. -/
def starSuffixes (c : Char) : List Char → List (List Char)
  | [] => [[]]
  | d :: ds => (d :: ds) :: (if c == d then starSuffixes c ds else [])

/-- Match a token list against a prefix of `ds` (the rest of `ds` may
remain). -/
def matchToks : List RTok → List Char → Bool
  | [], _ => true
  | RTok.lit c :: ts, ds =>
    match ds with
    | [] => false
    | d :: ds' => c == d && matchToks ts ds'
  | RTok.dot :: ts, ds =>
    match ds with
    | [] => false
    | _ :: ds' => matchToks ts ds'
  | RTok.star c :: ts, ds => (starSuffixes c ds).any fun s => matchToks ts s
  | RTok.plus c :: ts, ds =>
    match ds with
    | [] => false
    | d :: ds' => c == d && (starSuffixes c ds').any fun s => matchToks ts s

/-- Regex search: the token list matches at some position of the text,
as Python's `re.search` used by `str.contains`. -/
def rsearch (ts : List RTok) : List Char → Bool
  | [] => matchToks ts []
  | d :: ds => matchToks ts (d :: ds) || rsearch ts ds

/-- Model of `df["description"].str.upper().str.contains(pat.upper())`
with the default `regex=True`, applied to the uppercased description
`d`. -/
def rmatchP (d : List Char) (pat : String) : Bool :=
  rsearch (toToks (upperChars pat)) d

/-- Model of the same call with `regex=False`: case-insensitive literal
substring containment. -/
def strContains (d : List Char) (pat : String) : Bool :=
  containsSub (upperChars pat) d

/-! ## Data model

`RawTx` is a merged, normalized record before classification (the
columns created by the `load_*` adapters); `LabeledTx` adds the `label`
column created by `apply_labels`. -/

/-- A normalized transaction row: `date, description, amount, category,
card, source`. -/
structure RawTx where
  date : String
  description : String
  amount : Rat
  category : String
  card : String
  source : String
deriving DecidableEq, Repr

/-- A transaction row together with the `label` column. -/
structure LabeledTx extends RawTx where
  label : String
deriving DecidableEq, Repr

/-! ## Classification rule tables, copied from `apply_labels` -/

/-- Vending machine patterns (processed first). -/
def vending_patterns : List String :=
  ["AMK MSU POD UNION", "AMK MSU POD", "AMK POD", "AMK MSU EINSTEINS",
   "AMK MSU GRIFFIS", "AMK MSU PANDA", "CTLP*REFRESHMENTS INC",
   "CTLP*REFRESH", "COCA COLA CLARK STARKVIL", "COCA COLA CLARK STARKV",
   "COCA COLA SOUTH METRO", "CTLP*GREENSBORO VENDIN", "365 MARKET K"]

/-- Gas station brand patterns. -/
def gas_station_patterns : List String :=
  ["SHELL", "LOVE\x27S", "LOVE S", "BUC-EE", "BUCEE", "EXXON", "CHEVRON",
   "MARATHON", "MURPHY", "QT ", "QUIKTRIP", "PILOT", "CIRCLE K",
   "SPRINT MART", "76 - DEES", "76 DEES", "TEXACO", "BP#", "ON THE WAY"]

/-- Walmart patterns. -/
def walmart_patterns : List String :=
  ["WALMART", "WAL-MART", "WM SUPERCENTER", "WALMART.COM"]

/-- Books and reading. -/
def books_patterns : List (List String × String) :=
  [(["KINDLE"], "Books (Kindle)"), (["MCNALLY JACKSON"], "Books")]

/-- Streaming and subscriptions. -/
def streaming_labels : List (List String × String) :=
  [(["NETFLIX"], "Netflix"), (["DISNEY PLUS", "DISNEY+"], "Disney+"),
   (["YOUTUBE"], "YouTube Premium"), (["GOOGLE *ONE", "GOOGLE ONE"], "Google One"),
   (["HINGE"], "Hinge"), (["APPLE.COM"], "Apple")]

/-- Professional services. -/
def pro_services_labels : List (List String × String) :=
  [(["LINKEDIN"], "LinkedIn Premium"),
   (["STP*V*RESUME", "RESUMEEXAMPLE", "RESUME-EXAMPLE"], "Resume Services"),
   (["ATLYS"], "Visa Services (Atlys)"), (["MSDPS"], "DMV/DPS")]

/-- API and cloud costs. -/
def api_labels : List (List String × String) :=
  [(["GOOGLE *CLOUD", "GOOGLE CLOUD"], "API Costs (Google Cloud)"),
   (["GOOGLE COLAB", "COLAB"], "API Costs (Google Colab)"),
   (["AWS", "AMAZON WEB SERVICES"], "API Costs (AWS)"),
   (["ELEVENLABS", "ELEVEN LABS"], "API Costs (ElevenLabs)")]

/-- Transportation. -/
def transport_labels : List (List String × String) :=
  [(["UBER *TRIP"], "Uber Taxi"), (["PAYPAL *LYFT", "LYFT"], "Lyft"),
   (["MTA*NYCT", "OMNY"], "NYC Transit"), (["BIRD APP"], "Bird Scooter"),
   (["HNYFERRYIIL", "FERRY"], "Ferry")]

/-- Clothing and retail. -/
def clothing_labels : List (List String × String) :=
  [(["MARSHALLS"], "Clothes (Marshalls)"), (["CENTURY 21"], "Clothes (Century 21)"),
   (["H&M "], "Clothes (H&M)"),
   (["NIKE", "KLARNA*NIKE", "KLARNA* NIKE"], "Clothes (Nike)"),
   (["FIVE BELOW"], "Five Below")]

/-- Groceries and supermarkets. -/
def grocery_labels : List (List String × String) :=
  [(["KROGER"], "Grocery (Kroger)"), (["ALDI"], "Grocery (Aldi)"),
   (["PATEL BROTHERS"], "Grocery (Patel Brothers)"),
   (["B & W DELI"], "Deli/Grocery (NYC)")]

/-- Other shopping. -/
def shopping_labels : List (List String × String) :=
  [(["DOLLAR-GENERAL", "DOLLAR GENERAL"], "Dollar General"), (["TARGET"], "Target"),
   (["MICRO CENTER"], "Electronics (Micro Center)"), (["NYC GIFTS"], "NYC Gift Shop"),
   (["WH SMITH"], "WHSmith (Airport)"), (["BOOTS"], "Boots (UK Pharmacy)"),
   (["MAFES SALES"], "MSU MAFES Store"), (["NASSAU STREET"], "Nassau Street Store")]

/-- Services. -/
def services_labels : List (List String × String) :=
  [(["US MOBILE", "USMOBILE"], "Phone Service"),
   (["TOGGLE INSURANCE"], "Renters Insurance"),
   (["MOLINA HEALTH", "AMBETTER", "WELLCARE"], "Health Insurance"),
   (["UPS STORE"], "Shipping (UPS)"), (["SPORT CLIPS"], "Haircut"),
   (["COPY COW"], "Printing"), (["PEARSON"], "Textbooks (Pearson)"),
   (["MSU STUDENT HEALTH"], "MSU Health Center"), (["MSU CAMPUS"], "MSU Campus"),
   (["HCC MEDICAL", "HCCMEDICAL"], "Medical Payment"),
   (["MIDTOWN WASH"], "Car Wash"), (["GREENE ST DECK"], "Parking"),
   (["SOLIDGATE"], "Online Service"), (["BICYCLE REP"], "Bicycle Repair")]

/-- Travel. -/
def travel_labels : List (List String × String) :=
  [(["VIRGIN ATLANTIC"], "Flight (Virgin Atlantic)"),
   (["CHASE TRAVEL", "TRIPCHRG"], "Chase Travel"), (["SUPER 8"], "Hotel (Super 8)")]

/-- Entertainment. -/
def entertainment_labels : List (List String × String) :=
  [(["UEC THEATRE"], "Movie Theater"), (["TOPGOLF"], "TopGolf")]

/-- NYC halal restaurant patterns. -/
def halal_patterns : List String :=
  ["HALAL", "BARHOSHA", "HOODA", "YASSO", "CAIRO"]

/-- Restaurant-specific pattern groups (order matters; these skip rows
already labelled "Vending Machine"). -/
def restaurant_labels : List (List String × String) :=
  [(["WENDYS", "WENDY\x27S", "WENDY S"], "Wendy\x27s"),
   (["MCDONALD"], "McDonald\x27s"), (["TACO BELL"], "Taco Bell"),
   (["BURGER KING"], "Burger King"),
   (["CHICK-FIL-A", "CHICKFILA", "CHICK FIL"], "Chick-fil-A"),
   (["RAISING CANE"], "Raising Cane\x27s"), (["COOK OUT", "COOKOUT"], "Cook Out"),
   (["WAFFLE HOUSE"], "Waffle House"),
   (["CHILIS", "CHILI\x27S", "CHILI S"], "Chili\x27s"),
   (["BUFFALO", "BUFFALOWI"], "Buffalo Wild Wings"),
   (["ANDAMAN THAI"], "Thai Restaurant"), (["TOPGOLF"], "TopGolf"),
   (["PITA PIT"], "Pita Pit"), (["DOMINO", "DOMINOS"], "Domino\x27s"),
   (["PIZZA", "LITTLE ITALY"], "Pizza"), (["STARBUCKS"], "Starbucks"),
   (["HIGH GROUND COFFEE"], "High Ground Coffee"), (["DUNKIN"], "Dunkin"),
   (["DD *DOORDASH", "DOORDASH"], "DoorDash"), (["GRUBHUB"], "Grubhub"),
   (["UBER *EATS", "UBER EATS", "UBEREATS", "UBER   *EATS"], "Uber Eats"),
   (["PANDA EXPRESS", "TECH DINING-PANDA"], "Panda Express"),
   (["BOARDTOWN"], "Boardtown Pies"), (["DAVES DARK HORSE"], "Dave\x27s Dark Horse"),
   (["TAXI SHOP CAF"], "Taxi Shop Caf\xC3\xA9"), (["RETAG FOOD"], "Food Vendor")]

/-- Final-pass vending patterns, applied with `regex=False`. -/
def vending_final_patterns : List String :=
  ["AMK MSU", "AMK POD", "CTLP", "COCA COLA CLARK", "COCA COLA SOUTH",
   "365 MARKET K"]

/-! ## The classification engine, row-wise

Every mask in `apply_labels` is computed row by row from `description`,
`amount`, `category` and the current `label`, so the whole function is a
map of a per-row label computation over the collection. -/

/-- One loop `for pattern in patterns: df.loc[mask, "label"] = label`
with the default `regex=True`. -/
def applyGroupR (pats : List String) (lab : String) (d : List Char) (st : String) :
    String :=
  pats.foldl (fun s p => if rmatchP d p then lab else s) st

/-- The same loop with `regex=False` (the final vending pass). -/
def applyGroupLit (pats : List String) (lab : String) (d : List Char) (st : String) :
    String :=
  pats.foldl (fun s p => if strContains d p then lab else s) st

/-- A list of `(patterns, label)` groups applied in order. -/
def applyLabelGroups (groups : List (List String × String)) (d : List Char)
    (st : String) : String :=
  groups.foldl (fun s g => applyGroupR g.1 g.2 d s) st

/-- The gas-station loop: per pattern, first the `amount < 30` branch,
then the `amount >= 30` branch, as in lines 178-183 of the source. -/
def applyGasGroup (pats : List String) (amount : Rat) (d : List Char) (st : String) :
    String :=
  pats.foldl
    (fun s p =>
      let s1 := if rmatchP d p && decide (amount < 30) then
        "Gas Station Indiscretion" else s
      if rmatchP d p && decide (30 ≤ amount) then "Gasoline" else s1)
    st

/-- The inner restaurant loop for one `(patterns, label)` pair: the
mask is intersected with `df["label"] != "Vending Machine"` per
pattern. -/
def applyRestaurantPats (pats : List String) (lab : String) (d : List Char)
    (st : String) : String :=
  pats.foldl
    (fun s2 p => if rmatchP d p && !(s2 == "Vending Machine") then lab else s2)
    st

/-- The restaurant loops, which skip rows currently labelled
"Vending Machine". -/
def applyRestaurantGroups (groups : List (List String × String)) (d : List Char)
    (st : String) : String :=
  groups.foldl (fun s g => applyRestaurantPats g.1 g.2 d s) st

/-- The full per-row label computation of `apply_labels`: starting from
`label = category`, each rule block of the source is applied in source
order.  The one alternation regex `"SIMPLEBILLS|SIMPLE BILLS"` is split
into its two top-level alternatives. -/
def labelOf (desc : String) (amount : Rat) (category : String) : String :=
  let d := upperChars desc
  let l1 := applyGroupR vending_patterns "Vending Machine" d category
  let l2 := if rmatchP d "SIMPLEBILLS" || rmatchP d "SIMPLE BILLS" then
    "Electricity" else l1
  let l3 := applyGasGroup gas_station_patterns amount d l2
  let l4 := applyGroupR walmart_patterns "Walmart" d l3
  let l5 := applyLabelGroups books_patterns d l4
  let l6 := applyLabelGroups streaming_labels d l5
  let l7 := applyLabelGroups pro_services_labels d l6
  let l8 := applyLabelGroups api_labels d l7
  let l9 := applyLabelGroups transport_labels d l8
  let l10 := applyLabelGroups clothing_labels d l9
  let l11 := applyLabelGroups grocery_labels d l10
  let l12 := applyLabelGroups shopping_labels d l11
  let l13 := applyLabelGroups services_labels d l12
  let l14 := applyLabelGroups travel_labels d l13
  let l15 := applyLabelGroups entertainment_labels d l14
  let l16 := if rmatchP d "MICROSOFT" then "Microsoft" else l15
  let l17 := if rmatchP d "AMAZON PRIME" then "Amazon Prime" else l16
  let l18 := if rmatchP d "AMAZON" && !rmatchP d "PRIME" && !rmatchP d "KINDLE" &&
      !rmatchP d "WEB SERVICES" then "Amazon Shopping" else l17
  let l19 := if rmatchP d "PAYPAL *GOOGLE" && (l18 == category) then
    "Google Services" else l18
  let l20 := if rmatchP d "ALIPAY" then "Alipay Transfer" else l19
  let l21 := applyGroupR halal_patterns "NYC Halal Food" d l20
  let l22 := applyRestaurantGroups restaurant_labels d l21
  applyGroupLit vending_final_patterns "Vending Machine" d l22

/-- Per-row form of `apply_labels`: attach the computed label. -/
def applyRow (r : RawTx) : LabeledTx :=
  { r with label := labelOf r.description r.amount r.category }

/-- The function `apply_labels`: create the `label` column as a copy of
`category` and run all rule blocks; row-wise over the collection. -/
def apply_labels (rs : List RawTx) : List LabeledTx :=
  rs.map applyRow

/-! ## Date normalization (`normalize_date`)

The source tries the `strptime` formats `%Y-%m-%d`, `%m/%d/%Y`,
`%m/%d/%y` in order and falls back to the stripped input string.
`strptime` accepts a four-digit year for `%Y`, two digits for `%y`
(mapped to 2000-2068 / 1969-1999), one or two digits for `%m` / `%d`,
and rejects dates that are invalid on the real calendar. -/

/-- Python whitespace characters stripped by `str.strip`. -/
def pySpace (c : Char) : Bool :=
  c == ' ' || c == '\t' || c == '\n' || c == '\r' || c == '\x0b' || c == '\x0c'

/-- Model of Python `str.strip()`. -/
def pyStrip (cs : List Char) : List Char :=
  ((cs.dropWhile pySpace).reverse.dropWhile pySpace).reverse

/-- Model of Python `str.rstrip()`. -/
def pyRstrip (cs : List Char) : List Char :=
  (cs.reverse.dropWhile pySpace).reverse

/-- Numeric value of a digit character. -/
def digitN (c : Char) : Nat := c.toNat - 48

/-- Gregorian leap-year test. -/
def isLeap (y : Nat) : Bool := y % 4 == 0 && (y % 100 != 0 || y % 400 == 0)

/-- Number of days of month `m` in year `y`. -/
def daysInMonth (y m : Nat) : Nat :=
  if m == 2 then (if isLeap y then 29 else 28)
  else if m == 4 || m == 6 || m == 9 || m == 11 then 30
  else 31

/-- Calendar validity as checked by `datetime`. -/
def validDate (y m d : Nat) : Bool :=
  1 ≤ m && m ≤ 12 && 1 ≤ d && d ≤ daysInMonth y m

/-- Parse exactly four digits (`%Y`). -/
def parse4digits : List Char → Option (Nat × List Char)
  | a :: b :: c :: d :: rest =>
    if a.isDigit && b.isDigit && c.isDigit && d.isDigit then
      some (digitN a * 1000 + digitN b * 100 + digitN c * 10 + digitN d, rest)
    else none
  | _ => none

/-- Parse exactly two digits (`%y`). -/
def parse2digits : List Char → Option (Nat × List Char)
  | a :: b :: rest =>
    if a.isDigit && b.isDigit then some (digitN a * 10 + digitN b, rest) else none
  | _ => none

/-- Parse one or two digits with value in `[1, hi]`, preferring two, as
`strptime` does for `%m` and `%d`. -/
def parseNumField (hi : Nat) : List Char → Option (Nat × List Char)
  | a :: b :: rest =>
    if a.isDigit && b.isDigit && 1 ≤ digitN a * 10 + digitN b &&
        digitN a * 10 + digitN b ≤ hi then
      some (digitN a * 10 + digitN b, rest)
    else if a.isDigit && 1 ≤ digitN a && digitN a ≤ 9 then some (digitN a, b :: rest)
    else none
  | [a] => if a.isDigit && 1 ≤ digitN a then some (digitN a, []) else none
  | [] => none

/-- Consume one expected character. -/
def expectChar (c : Char) : List Char → Option (List Char)
  | d :: rest => if d == c then some rest else none
  | [] => none

/-- Try the format `%Y-%m-%d` on the whole string. -/
def tryFormatISO (cs : List Char) : Option (Nat × Nat × Nat) :=
  match parse4digits cs with
  | none => none
  | some (y, r1) =>
    match expectChar '-' r1 with
    | none => none
    | some r2 =>
      match parseNumField 12 r2 with
      | none => none
      | some (m, r3) =>
        match expectChar '-' r3 with
        | none => none
        | some r4 =>
          match parseNumField 31 r4 with
          | none => none
          | some (d, r5) =>
            if r5 = [] && validDate y m d then some (y, m, d) else none

/-- Try the format `%m/%d/%Y` on the whole string. -/
def tryFormatMDY4 (cs : List Char) : Option (Nat × Nat × Nat) :=
  match parseNumField 12 cs with
  | none => none
  | some (m, r1) =>
    match expectChar '/' r1 with
    | none => none
    | some r2 =>
      match parseNumField 31 r2 with
      | none => none
      | some (d, r3) =>
        match expectChar '/' r3 with
        | none => none
        | some r4 =>
          match parse4digits r4 with
          | none => none
          | some (y, r5) =>
            if r5 = [] && validDate y m d then some (y, m, d) else none

/-- Try the format `%m/%d/%y` on the whole string; `strptime` maps the
two-digit year to 2000-2068 or 1969-1999. -/
def tryFormatMDY2 (cs : List Char) : Option (Nat × Nat × Nat) :=
  match parseNumField 12 cs with
  | none => none
  | some (m, r1) =>
    match expectChar '/' r1 with
    | none => none
    | some r2 =>
      match parseNumField 31 r2 with
      | none => none
      | some (d, r3) =>
        match expectChar '/' r3 with
        | none => none
        | some r4 =>
          match parse2digits r4 with
          | none => none
          | some (y2, r5) =>
            let y := if y2 ≤ 68 then 2000 + y2 else 1900 + y2
            if r5 = [] && validDate y m d then some (y, m, d) else none

/-- Left-pad a digit list with zeros to width `k`. -/
def padLeft (k : Nat) (ds : List Char) : List Char :=
  List.replicate (k - ds.length) '0' ++ ds

/-- Format a date as `YYYY-MM-DD` (`strftime("%Y-%m-%d")`). -/
def formatISO (y m d : Nat) : List Char :=
  padLeft 4 (Nat.toDigits 10 y) ++ '-' :: padLeft 2 (Nat.toDigits 10 m) ++
    '-' :: padLeft 2 (Nat.toDigits 10 d)

/-- The function `normalize_date`: strip, try the three formats in
order, and pass the stripped string through unchanged when none parse. -/
def normalize_date (date_str : String) : String :=
  let cs := pyStrip date_str.data
  match tryFormatISO cs with
  | some (y, m, d) => ⟨formatISO y m d⟩
  | none =>
    match tryFormatMDY4 cs with
    | some (y, m, d) => ⟨formatISO y m d⟩
    | none =>
      match tryFormatMDY2 cs with
      | some (y, m, d) => ⟨formatISO y m d⟩
      | none => ⟨cs⟩

/-! ## Source adapters

Each adapter is modelled at the row level: the pandas CSV read is split
into the encoding-fallback stage (below) and a row transformation on
the already-parsed records, which is what the dataframe expressions in
the source compute row by row. -/

/-- A parsed CapitalOne CSV row; `debit` and `credit` are `none` for an
empty cell (pandas `NaN`). -/
structure CapRow where
  transactionDate : String
  postedDate : String
  description : String
  category : String
  debit : Option Rat
  credit : Option Rat
deriving DecidableEq, Repr

/-- A parsed Discover CSV row. -/
structure DiscRow where
  transDate : String
  postDate : String
  description : String
  amount : Rat
  category : String
deriving DecidableEq, Repr

/-- A parsed row of the already-normalized Chase extraction CSV. -/
structure ChaseRow where
  date : String
  description : String
  amount : Rat
  category : String
  card : String
  source : String
deriving DecidableEq, Repr

/-- Row-level model of `load_capital_one` (after the CSV is read): keep
the rows whose `Debit` is present (`notna`) and normalize the columns. -/
def load_capital_one (fname : String) (rows : List CapRow) : List RawTx :=
  (rows.filter fun r => r.debit.isSome).map fun r =>
    { date := normalize_date r.transactionDate
      description := r.description
      amount := r.debit.getD 0
      category := r.category
      card := "CapitalOne"
      source := fname }

/-- The categories excluded by `load_discover`. -/
def discover_excluded_categories : List String :=
  ["Payments and Credits", "Awards and Rebate Credits"]

/-- Row-level model of `load_discover`: keep rows with `Amount > 0`
whose category is not a payment or credit, and normalize the columns. -/
def load_discover (fname : String) (rows : List DiscRow) : List RawTx :=
  (((rows.filter fun r => decide (0 < r.amount)).filter fun r =>
      !(discover_excluded_categories.contains r.category)).map fun r =>
    { date := normalize_date r.transDate
      description := r.description
      amount := r.amount
      category := r.category
      card := "Discover"
      source := fname })

/-- Row-level model of `load_chase`: the columns are already normalized
during extraction, so every row passes through unchanged. -/
def load_chase (rows : List ChaseRow) : List RawTx :=
  rows.map fun r =>
    { date := r.date
      description := r.description
      amount := r.amount
      category := r.category
      card := r.card
      source := r.source }

/-- Model of `merge_all_csvs` up to classification: concatenate the
adapter outputs in source order (CapitalOne, Discover, Chase) and apply
the labels.  The trailing `sort_values("date")` call delegates to the
pandas default sort and is outside the modelled core. -/
def merge_all_csvs (capName discName : String) (capRows : List CapRow)
    (discRows : List DiscRow) (chaseRows : List ChaseRow) : List LabeledTx :=
  apply_labels
    (load_capital_one capName capRows ++ load_discover discName discRows ++
      load_chase chaseRows)

/-! ## Encoding fallback (lines 34-45, 65-76, 97-108 of the merger)

Each adapter tries `utf-8`, `latin-1`, `cp1252`, `iso-8859-1` in order,
catching `UnicodeDecodeError` (modelled as `none`) and raising
`ValueError` when every candidate fails.  The `utf-8` and `cp1252`
codecs are external collaborators and stay abstract parameters; they
may fail on any input. -/

/-- The candidate encodings, in source order. -/
inductive PyEncoding where
  | utf8 : PyEncoding
  | latin1 : PyEncoding
  | cp1252 : PyEncoding
  | iso8859_1 : PyEncoding
deriving DecidableEq, Repr

/-- The list `['utf-8', 'latin-1', 'cp1252', 'iso-8859-1']`. -/
def encoding_candidates : List PyEncoding :=
  [PyEncoding.utf8, PyEncoding.latin1, PyEncoding.cp1252, PyEncoding.iso8859_1]

/-- Modelled from the spec of Python's `latin-1` codec (not repository
code): ISO-8859-1 maps every byte to the Unicode code point of the same
value, so decoding never raises `UnicodeDecodeError`. -/
def latin1_decode (bs : List (Fin 256)) : Option (List Char) :=
  some (bs.map fun b => Char.ofNat b.val)

/-- Decode a byte list with one candidate encoding; `u8` and `cp` are
the abstract `utf-8` and `cp1252` codecs, and `iso-8859-1` is the same
codec as `latin-1`. -/
def decode_with (u8 cp : List (Fin 256) → Option (List Char)) :
    PyEncoding → List (Fin 256) → Option (List Char)
  | PyEncoding.utf8, bs => u8 bs
  | PyEncoding.latin1, bs => latin1_decode bs
  | PyEncoding.cp1252, bs => cp bs
  | PyEncoding.iso8859_1, bs => latin1_decode bs

/-- The fallback loop: try each encoding, keep the first success. -/
def try_encodings (u8 cp : List (Fin 256) → Option (List Char)) :
    List PyEncoding → List (Fin 256) → Option (List Char)
  | [], _ => none
  | e :: es, bs =>
    match decode_with u8 cp e bs with
    | some t => some t
    | none => try_encodings u8 cp es bs

/-- The shared read stage of the three adapters: run the fallback loop
over the candidate list. -/
def read_with_encodings (u8 cp : List (Fin 256) → Option (List Char))
    (bs : List (Fin 256)) : Option (List Char) :=
  try_encodings u8 cp encoding_candidates bs

/-- Boolean success test for `Except`. -/
def isOkB {ε α : Type} : Except ε α → Bool
  | Except.ok _ => true
  | Except.error _ => false

/-- File-level `load_capital_one`: the encoding fallback followed by
the row transformation; `parseCsv` is the external CSV reader applied
to the decoded text.  The `none` branch is the
`raise ValueError(f"Could not read ... with any encoding")` line. -/
def load_capital_one_file (u8 cp : List (Fin 256) → Option (List Char))
    (parseCsv : List Char → List CapRow) (fname : String) (bs : List (Fin 256)) :
    Except String (List RawTx) :=
  match read_with_encodings u8 cp bs with
  | none => Except.error ("Could not read " ++ fname ++ " with any encoding")
  | some txt => Except.ok (load_capital_one fname (parseCsv txt))

/-- File-level `load_discover`, of the same shape. -/
def load_discover_file (u8 cp : List (Fin 256) → Option (List Char))
    (parseCsv : List Char → List DiscRow) (fname : String) (bs : List (Fin 256)) :
    Except String (List RawTx) :=
  match read_with_encodings u8 cp bs with
  | none => Except.error ("Could not read " ++ fname ++ " with any encoding")
  | some txt => Except.ok (load_discover fname (parseCsv txt))

/-- File-level `load_chase`, of the same shape. -/
def load_chase_file (u8 cp : List (Fin 256) → Option (List Char))
    (parseCsv : List Char → List ChaseRow) (fname : String) (bs : List (Fin 256)) :
    Except String (List RawTx) :=
  match read_with_encodings u8 cp bs with
  | none => Except.error ("Could not read " ++ fname ++ " with any encoding")
  | some txt => Except.ok (load_chase (parseCsv txt))

/-! ## Malformed-output repair (`try_fix_truncated_json`) -/

/-- The `in_string` scan of `try_fix_truncated_json`: walk the text
toggling on each unescaped double quote, skipping the character after a
backslash. -/
def inStringScan : List Char → Bool → Bool → Bool
  | [], inS, _ => inS
  | c :: rest, inS, esc =>
    if esc then inStringScan rest inS false
    else if c == backslashC then inStringScan rest inS true
    else if c == quoteC then inStringScan rest (!inS) false
    else inStringScan rest inS false

/-- The function `try_fix_truncated_json`: count unmatched bracket
depth by character counting, close an open string, strip one trailing
comma after `rstrip`, and append closing brackets.  The counts are
integers; Python's `'}' * n` is empty for `n <= 0`, modelled by
`Int.toNat`. -/
def try_fix_truncated_json (json_str : List Char) : List Char :=
  let open_braces : Int := (json_str.count lbraceC : Int) - (json_str.count rbraceC : Int)
  let open_brackets : Int := (json_str.count '[' : Int) - (json_str.count ']' : Int)
  let in_string := inStringScan json_str false false
  let fixed := json_str
  let fixed := if in_string then fixed ++ [quoteC] else fixed
  let fixed := pyRstrip fixed
  let fixed := if fixed.getLastD ' ' == ',' then fixed.dropLast else fixed
  let fixed := fixed ++ List.replicate open_braces.toNat rbraceC
  fixed ++ List.replicate open_brackets.toNat ']'

/-! ## Response cleanup and the extraction retry ladder -/

/-- Split a character list at newline characters, as Python
`str.split("\n")`; the result is never empty. -/
def splitNl : List Char → List (List Char)
  | [] => [[]]
  | c :: rest =>
    match splitNl rest with
    | [] => [[]]
    | h :: t => if c == '\n' then [] :: h :: t else (c :: h) :: t

/-- Join lines with newlines, as Python `"\n".join(lines)`. -/
def joinNl (lines : List (List Char)) : List Char :=
  List.intercalate ['\n'] lines

/-- Boolean suffix test. -/
def isSuffixB (p t : List Char) : Bool := isPrefixB p.reverse t.reverse

/-- Lines 120-133 of the extractor: strip the response text, remove a
leading markdown fence line (and the closing fence line when the last
line is exactly a fence), then remove a trailing fence without a
newline. -/
def cleanup_response (raw : List Char) : List Char :=
  let t := pyStrip raw
  let t :=
    if isPrefixB "```".data t then
      let lines := splitNl t
      if pyStrip (lines.getLastD []) == "```".data then
        joinNl (lines.drop 1).dropLast
      else joinNl (lines.drop 1)
    else t
  if isSuffixB "```".data t then t.take (t.length - 3) else t

/-- The function `extract_transactions_from_pdf`, with its two external
collaborators abstracted: `respond i` is the text produced by the model
for the `i`-th attempt (upload and generation), and `parseJ` is
`json.loads` specialised to a list of records of type `R` (`none` is
`json.JSONDecodeError`).  Parse directly, then parse the repaired text,
then recurse once with `retry_count + 1`, then give up with `[]`. -/
def extract_transactions_from_pdf {R : Type} (parseJ : List Char → Option (List R))
    (respond : Nat → List Char) (retry_count : Nat) : List R :=
  let response_text := cleanup_response (respond retry_count)
  match parseJ response_text with
  | some transactions => transactions
  | none =>
    match parseJ (try_fix_truncated_json response_text) with
    | some transactions => transactions
    | none =>
      if _h : retry_count < 1 then
        extract_transactions_from_pdf parseJ respond (retry_count + 1)
      else []
termination_by 1 - retry_count
decreasing_by omega

/-- One attempt of the ladder, for stating its behaviour: parse the
cleaned text directly, and on failure parse its repaired form. -/
def attemptParse {R : Type} (parseJ : List Char → Option (List R))
    (raw : List Char) : Option (List R) :=
  let t := cleanup_response raw
  match parseJ t with
  | some ts => some ts
  | none => parseJ (try_fix_truncated_json t)

/-! ## A JSON parser

Modelled from the documented behaviour of Python's `json.loads` (an
external collaborator of the repository): values are objects, arrays,
strings, numbers, booleans and null; parsing is strict and must consume
the whole input up to whitespace. -/

/-- JSON values; a number is a decimal mantissa and a power-of-ten
exponent. -/
inductive Json where
  | jnull : Json
  | jbool : Bool → Json
  | jnum : Int → Int → Json
  | jstr : List Char → Json
  | jarr : List Json → Json
  | jobj : List (List Char × Json) → Json

/-- JSON insignificant whitespace. -/
def skipWsJ (cs : List Char) : List Char :=
  cs.dropWhile fun c => c == ' ' || c == '\t' || c == '\n' || c == '\r'

/-- Value of a hexadecimal digit. -/
def hexVal (c : Char) : Option Nat :=
  if c.isDigit then some (c.toNat - 48)
  else if 97 ≤ c.toNat && c.toNat ≤ 102 then some (c.toNat - 87)
  else if 65 ≤ c.toNat && c.toNat ≤ 70 then some (c.toNat - 55)
  else none

/-- Parse the remainder of a JSON string literal (after the opening
quote), handling the escape sequences of the JSON grammar. -/
def parseJStr : List Char → Option (List Char × List Char)
  | [] => none
  | c :: rest =>
    if c == quoteC then some ([], rest)
    else if c == backslashC then
      match rest with
      | [] => none
      | e :: rest2 =>
        if e == quoteC then (parseJStr rest2).map fun p => (quoteC :: p.1, p.2)
        else if e == backslashC then
          (parseJStr rest2).map fun p => (backslashC :: p.1, p.2)
        else if e == '/' then (parseJStr rest2).map fun p => ('/' :: p.1, p.2)
        else if e == 'b' then (parseJStr rest2).map fun p => ('\x08' :: p.1, p.2)
        else if e == 'f' then (parseJStr rest2).map fun p => ('\x0c' :: p.1, p.2)
        else if e == 'n' then (parseJStr rest2).map fun p => ('\n' :: p.1, p.2)
        else if e == 'r' then (parseJStr rest2).map fun p => ('\r' :: p.1, p.2)
        else if e == 't' then (parseJStr rest2).map fun p => ('\t' :: p.1, p.2)
        else if e == 'u' then
          match rest2 with
          | h1 :: h2 :: h3 :: h4 :: rest3 =>
            match hexVal h1, hexVal h2, hexVal h3, hexVal h4 with
            | some a, some b, some c2, some d =>
              (parseJStr rest3).map fun p =>
                (Char.ofNat (a * 4096 + b * 256 + c2 * 16 + d) :: p.1, p.2)
            | _, _, _, _ => none
          | _ => none
        else none
    else if c.toNat < 32 then none
    else (parseJStr rest).map fun p => (c :: p.1, p.2)

/-- Longest digit prefix and the rest. -/
def spanDigits (cs : List Char) : List Char × List Char :=
  (cs.takeWhile Char.isDigit, cs.dropWhile Char.isDigit)

/-- Natural number denoted by a digit list. -/
def digitsToNat (ds : List Char) : Nat :=
  ds.foldl (fun a c => a * 10 + digitN c) 0

/-- Parse a JSON number at the head of the input. -/
def parseJNum (cs : List Char) : Option (Json × List Char) :=
  let sr : Bool × List Char :=
    match cs with
    | c :: r => if c == '-' then (true, r) else (false, cs)
    | [] => (false, [])
  let neg := sr.1
  let (ints, r1) := spanDigits sr.2
  if ints = [] then none
  else if ints.length > 1 && ints.headD '0' == '0' then none
  else
    let fracRes : Option (List Char × List Char) :=
      match r1 with
      | c :: r =>
        if c == '.' then
          let (fs, rr) := spanDigits r
          if fs = [] then none else some (fs, rr)
        else some ([], r1)
      | [] => some ([], [])
    match fracRes with
    | none => none
    | some (fs, r2) =>
      let expRes : Option (Bool × List Char × List Char) :=
        match r2 with
        | c :: r =>
          if c == 'e' || c == 'E' then
            let sr2 : Bool × List Char :=
              match r with
              | s :: r4 => if s == '-' then (true, r4)
                else if s == '+' then (false, r4) else (false, r)
              | [] => (false, [])
            let (es, r5) := spanDigits sr2.2
            if es = [] then none else some (sr2.1, es, r5)
          else some (false, [], r2)
        | [] => some (false, [], [])
      match expRes with
      | none => none
      | some (esign, es, r6) =>
        let mant : Int := Int.ofNat (digitsToNat (ints ++ fs))
        let mant := if neg then -mant else mant
        let e10 : Int :=
          (if esign then -(Int.ofNat (digitsToNat es)) else Int.ofNat (digitsToNat es)) -
            Int.ofNat fs.length
        some (Json.jnum mant e10, r6)

mutual

/-- Parse one JSON value; `fuel` bounds the recursion depth and is
ample at the use site. -/
def parseJVal : Nat → List Char → Option (Json × List Char)
  | 0, _ => none
  | fuel + 1, cs =>
    match skipWsJ cs with
    | [] => none
    | c :: rest =>
      if c == quoteC then (parseJStr rest).map fun p => (Json.jstr p.1, p.2)
      else if c == lbraceC then
        match skipWsJ rest with
        | d :: rest2 =>
          if d == rbraceC then some (Json.jobj [], rest2)
          else (parseJMembers fuel (d :: rest2)).map fun p => (Json.jobj p.1, p.2)
        | [] => none
      else if c == '[' then
        match skipWsJ rest with
        | d :: rest2 =>
          if d == ']' then some (Json.jarr [], rest2)
          else (parseJElems fuel (d :: rest2)).map fun p => (Json.jarr p.1, p.2)
        | [] => none
      else if c == 't' then
        match rest with
        | 'r' :: 'u' :: 'e' :: r => some (Json.jbool true, r)
        | _ => none
      else if c == 'f' then
        match rest with
        | 'a' :: 'l' :: 's' :: 'e' :: r => some (Json.jbool false, r)
        | _ => none
      else if c == 'n' then
        match rest with
        | 'u' :: 'l' :: 'l' :: r => some (Json.jnull, r)
        | _ => none
      else parseJNum (c :: rest)

/-- Parse the comma-separated elements of a non-empty array, up to and
including the closing bracket. -/
def parseJElems : Nat → List Char → Option (List Json × List Char)
  | 0, _ => none
  | fuel + 1, cs =>
    match parseJVal fuel cs with
    | none => none
    | some (v, r) =>
      match skipWsJ r with
      | c :: r2 =>
        if c == ',' then (parseJElems fuel r2).map fun p => (v :: p.1, p.2)
        else if c == ']' then some ([v], r2)
        else none
      | [] => none

/-- Parse the members of a non-empty object, up to and including the
closing brace. -/
def parseJMembers : Nat → List Char → Option (List (List Char × Json) × List Char)
  | 0, _ => none
  | fuel + 1, cs =>
    match skipWsJ cs with
    | c :: r =>
      if c == quoteC then
        match parseJStr r with
        | none => none
        | some (k, r2) =>
          match skipWsJ r2 with
          | d :: r3 =>
            if d == ':' then
              match parseJVal fuel r3 with
              | none => none
              | some (v, r4) =>
                match skipWsJ r4 with
                | e :: r5 =>
                  if e == ',' then
                    (parseJMembers fuel r5).map fun p => ((k, v) :: p.1, p.2)
                  else if e == rbraceC then some ([(k, v)], r5)
                  else none
                | [] => none
            else none
          | [] => none
      else none
    | [] => none

end

/-- Model of `json.loads`: parse one value and require only whitespace
to remain. -/
def parseJson (cs : List Char) : Option Json :=
  match parseJVal (cs.length + 1) cs with
  | some (v, r) => if skipWsJ r = [] then some v else none
  | none => none

/-! ## Lemmas about the substring and regex machinery -/

/-- Conditional rewriting helper for Boolean `if`. -/
theorem if_bool_false {α : Sort _} {b : Bool} (h : b = false) {x y : α} :
    (if b then x else y) = y := by
  subst h; rfl

/-- Conditional rewriting helper for Boolean `if`. -/
theorem if_bool_true {α : Sort _} {b : Bool} (h : b = true) {x y : α} :
    (if b then x else y) = x := by
  subst h; rfl

/-- `isPrefixB` decides `List.IsPrefix`. -/
theorem isPrefixB_iff (p t : List Char) : isPrefixB p t = true ↔ p <+: t := by
  induction p generalizing t with
  | nil => simp [isPrefixB]
  | cons c ps ih =>
    cases t with
    | nil => simp [isPrefixB]
    | cons d ds => simp [isPrefixB, List.cons_prefix_cons, ih]

/-- `containsSub` decides `List.IsInfix`. -/
theorem containsSub_iff (p t : List Char) : containsSub p t = true ↔ p <:+: t := by
  induction t with
  | nil =>
    cases p with
    | nil => simp [containsSub, isPrefixB]
    | cons c ps => simp [containsSub, isPrefixB]
  | cons d ds ih =>
    rw [containsSub, Bool.or_eq_true, isPrefixB_iff, ih, List.infix_cons_iff]

/-- Substring containment is transitive. -/
theorem containsSub_trans {a b c : List Char} (h1 : containsSub a b = true)
    (h2 : containsSub b c = true) : containsSub a c = true := by
  rw [containsSub_iff] at h1 h2 ⊢
  exact h1.trans h2

/-- Monotonicity transfer for literal pattern containment: if pattern
`q` occurs inside pattern `p` (after uppercasing) then any description
containing `p` contains `q`. -/
theorem strContains_mono {d : List Char} {p q : String}
    (hpq : containsSub (upperChars q) (upperChars p) = true)
    (h : strContains d p = true) : strContains d q = true :=
  containsSub_trans hpq h

/-- On a token list of plain literals, `matchToks` is the prefix test. -/
theorem matchToks_lits (l : List Char) (ds : List Char) :
    matchToks (l.map RTok.lit) ds = isPrefixB l ds := by
  induction l generalizing ds with
  | nil => cases ds <;> rfl
  | cons c cs ih =>
    cases ds with
    | nil => rfl
    | cons d ds' => simp [matchToks, isPrefixB, ih]

/-- On a token list of plain literals, regex search is substring
containment. -/
theorem rsearch_lits (l : List Char) (ds : List Char) :
    rsearch (l.map RTok.lit) ds = containsSub l ds := by
  induction ds with
  | nil => simp [rsearch, containsSub, matchToks_lits]
  | cons d ds' ih => simp [rsearch, containsSub, matchToks_lits, ih]

/-- For a pattern with no regex metacharacters (its token compilation
is all literals), the `regex=True` match coincides with literal
containment. -/
theorem rmatchP_eq_strContains {p : String}
    (h : toToks (upperChars p) = (upperChars p).map RTok.lit) (d : List Char) :
    rmatchP d p = strContains d p := by
  rw [rmatchP, h, rsearch_lits]; rfl

/-! ## Lemmas about the rule-group combinators -/

/-- A group loop leaves its own label fixed. -/
theorem applyGroupR_const (pats : List String) (lab : String) (d : List Char) :
    applyGroupR pats lab d lab = lab := by
  induction pats with
  | nil => rfl
  | cons q ps ih => simpa [applyGroupR, ite_self] using ih

/-- A group loop whose label was set by a matching pattern ends at that
label. -/
theorem applyGroupR_of_mem {pats : List String} {lab : String} {d : List Char}
    {p : String} (hp : p ∈ pats) (hm : rmatchP d p = true) (st : String) :
    applyGroupR pats lab d st = lab := by
  induction pats generalizing st with
  | nil => cases hp
  | cons q ps ih =>
    rcases List.mem_cons.mp hp with rfl | hp'
    · simp only [applyGroupR, List.foldl_cons, if_bool_true hm]
      exact applyGroupR_const ps lab d
    · simp only [applyGroupR, List.foldl_cons]
      exact ih hp' _

/-- A group loop with no matching pattern is the identity. -/
theorem applyGroupR_id {pats : List String} {lab : String} {d : List Char}
    (h : pats.any (rmatchP d) = false) (st : String) :
    applyGroupR pats lab d st = st := by
  induction pats generalizing st with
  | nil => rfl
  | cons q ps ih =>
    simp only [List.any_cons, Bool.or_eq_false_iff] at h
    simp only [applyGroupR, List.foldl_cons, h.1, if_bool_false h.1]
    exact ih h.2 st

/-- A group loop returns its input label or its own label. -/
theorem applyGroupR_eq_or (pats : List String) (lab : String) (d : List Char)
    (st : String) :
    applyGroupR pats lab d st = st ∨ applyGroupR pats lab d st = lab := by
  induction pats generalizing st with
  | nil => exact Or.inl rfl
  | cons q ps ih =>
    simp only [applyGroupR, List.foldl_cons]
    by_cases hm : rmatchP d q = true
    · rw [if_bool_true hm]
      exact Or.inr (applyGroupR_const ps lab d)
    · rw [if_bool_false (Bool.not_eq_true _ ▸ hm)]
      exact ih st

/-- Literal-containment version of `applyGroupR_const`. -/
theorem applyGroupLit_const (pats : List String) (lab : String) (d : List Char) :
    applyGroupLit pats lab d lab = lab := by
  induction pats with
  | nil => rfl
  | cons q ps ih => simpa [applyGroupLit, ite_self] using ih

/-- Literal-containment version of `applyGroupR_of_mem`. -/
theorem applyGroupLit_of_mem {pats : List String} {lab : String} {d : List Char}
    {p : String} (hp : p ∈ pats) (hm : strContains d p = true) (st : String) :
    applyGroupLit pats lab d st = lab := by
  induction pats generalizing st with
  | nil => cases hp
  | cons q ps ih =>
    rcases List.mem_cons.mp hp with rfl | hp'
    · simp only [applyGroupLit, List.foldl_cons, if_bool_true hm]
      exact applyGroupLit_const ps lab d
    · simp only [applyGroupLit, List.foldl_cons]
      exact ih hp' _

/-- Literal-containment version of `applyGroupR_id`. -/
theorem applyGroupLit_id {pats : List String} {lab : String} {d : List Char}
    (h : pats.any (strContains d) = false) (st : String) :
    applyGroupLit pats lab d st = st := by
  induction pats generalizing st with
  | nil => rfl
  | cons q ps ih =>
    simp only [List.any_cons, Bool.or_eq_false_iff] at h
    simp only [applyGroupLit, List.foldl_cons, if_bool_false h.1]
    exact ih h.2 st

/-- Literal-containment version of `applyGroupR_eq_or`. -/
theorem applyGroupLit_eq_or (pats : List String) (lab : String) (d : List Char)
    (st : String) :
    applyGroupLit pats lab d st = st ∨ applyGroupLit pats lab d st = lab := by
  induction pats generalizing st with
  | nil => exact Or.inl rfl
  | cons q ps ih =>
    simp only [applyGroupLit, List.foldl_cons]
    by_cases hm : strContains d q = true
    · rw [if_bool_true hm]
      exact Or.inr (applyGroupLit_const ps lab d)
    · rw [if_bool_false (Bool.not_eq_true _ ▸ hm)]
      exact ih st

/-- A sequence of identity groups with no matching pattern is the
identity. -/
theorem applyLabelGroups_id {groups : List (List String × String)} {d : List Char}
    (h : (groups.any fun g => g.1.any (rmatchP d)) = false) (st : String) :
    applyLabelGroups groups d st = st := by
  induction groups generalizing st with
  | nil => rfl
  | cons g gs ih =>
    simp only [List.any_cons, Bool.or_eq_false_iff] at h
    simp only [applyLabelGroups, List.foldl_cons]
    rw [show applyGroupR g.1 g.2 d st = st from applyGroupR_id h.1 st]
    exact ih h.2 st

/-- A sequence of identity groups returns its input label or the label
of one of its groups. -/
theorem applyLabelGroups_eq_or (groups : List (List String × String))
    (d : List Char) (st : String) :
    applyLabelGroups groups d st = st ∨
      ∃ g ∈ groups, applyLabelGroups groups d st = g.2 := by
  induction groups generalizing st with
  | nil => exact Or.inl rfl
  | cons g gs ih =>
    simp only [applyLabelGroups, List.foldl_cons]
    rcases applyGroupR_eq_or g.1 g.2 d st with h1 | h1 <;> rw [h1]
    · rcases ih st with h2 | ⟨g', hg', h2⟩
      · exact Or.inl h2
      · exact Or.inr ⟨g', List.mem_cons_of_mem _ hg', h2⟩
    · rcases ih g.2 with h2 | ⟨g', hg', h2⟩
      · exact Or.inr ⟨g, List.mem_cons_self _ _, h2⟩
      · exact Or.inr ⟨g', List.mem_cons_of_mem _ hg', h2⟩

/-! ## Lemmas about the gas-station group -/

/-- Once set on a small amount, the incidental label survives the rest
of the gas loop. -/
theorem applyGasGroup_const_lt {amount : Rat} (hlt : amount < 30)
    (pats : List String) (d : List Char) :
    applyGasGroup pats amount d "Gas Station Indiscretion" =
      "Gas Station Indiscretion" := by
  have h30 : decide (30 ≤ amount) = false := by
    simp [not_le.mpr hlt]
  induction pats with
  | nil => rfl
  | cons q ps ih =>
    simpa [applyGasGroup, List.foldl_cons, h30, ite_self] using ih

/-- Once set on a large amount, the fuel label survives the rest of the
gas loop. -/
theorem applyGasGroup_const_ge {amount : Rat} (hge : 30 ≤ amount)
    (pats : List String) (d : List Char) :
    applyGasGroup pats amount d "Gasoline" = "Gasoline" := by
  have hlt : decide (amount < 30) = false := by
    simp [not_lt.mpr hge]
  induction pats with
  | nil => rfl
  | cons q ps ih =>
    simpa [applyGasGroup, List.foldl_cons, hlt, ite_self] using ih

/-- Unfolding of the gas loop on one pattern; the two `df.loc` lines
combine into a nested conditional on the current label. -/
theorem applyGasGroup_cons (q : String) (ps : List String) (amount : Rat)
    (d : List Char) (st : String) :
    applyGasGroup (q :: ps) amount d st =
      applyGasGroup ps amount d
        (if rmatchP d q && decide (30 ≤ amount) then "Gasoline"
         else if rmatchP d q && decide (amount < 30) then "Gas Station Indiscretion"
         else st) := rfl

/-- A matching pattern and an amount under 30 force the incidental
label. -/
theorem applyGasGroup_of_mem_lt {pats : List String} {amount : Rat} {d : List Char}
    {p : String} (hp : p ∈ pats) (hm : rmatchP d p = true) (hlt : amount < 30)
    (st : String) : applyGasGroup pats amount d st = "Gas Station Indiscretion" := by
  have h30 : decide (30 ≤ amount) = false := by
    simp [not_le.mpr hlt]
  have hl : decide (amount < 30) = true := by simp [hlt]
  induction pats generalizing st with
  | nil => cases hp
  | cons q ps ih =>
    rw [applyGasGroup_cons]
    rcases List.mem_cons.mp hp with rfl | hp'
    · rw [hm, h30, hl]
      simpa using applyGasGroup_const_lt hlt ps d
    · exact ih hp' _

/-- A matching pattern and an amount of 30 or more force the fuel
label. -/
theorem applyGasGroup_of_mem_ge {pats : List String} {amount : Rat} {d : List Char}
    {p : String} (hp : p ∈ pats) (hm : rmatchP d p = true) (hge : 30 ≤ amount)
    (st : String) : applyGasGroup pats amount d st = "Gasoline" := by
  have h30 : decide (30 ≤ amount) = true := by simp [hge]
  induction pats generalizing st with
  | nil => cases hp
  | cons q ps ih =>
    rw [applyGasGroup_cons]
    rcases List.mem_cons.mp hp with rfl | hp'
    · rw [hm, h30]
      simpa using applyGasGroup_const_ge hge ps d
    · exact ih hp' _

/-- The gas loop returns its input or one of its two labels. -/
theorem applyGasGroup_eq_or (pats : List String) (amount : Rat) (d : List Char)
    (st : String) :
    applyGasGroup pats amount d st = st ∨
      applyGasGroup pats amount d st = "Gas Station Indiscretion" ∨
      applyGasGroup pats amount d st = "Gasoline" := by
  induction pats generalizing st with
  | nil => exact Or.inl rfl
  | cons q ps ih =>
    rw [applyGasGroup_cons]
    by_cases h1 : (rmatchP d q && decide (30 ≤ amount)) = true
    · rw [if_bool_true h1]
      rcases ih "Gasoline" with h | h | h
      · exact Or.inr (Or.inr h)
      · exact Or.inr (Or.inl h)
      · exact Or.inr (Or.inr h)
    · rw [if_bool_false (Bool.not_eq_true _ ▸ h1)]
      by_cases h2 : (rmatchP d q && decide (amount < 30)) = true
      · rw [if_bool_true h2]
        rcases ih "Gas Station Indiscretion" with h | h | h
        · exact Or.inr (Or.inl h)
        · exact Or.inr (Or.inl h)
        · exact Or.inr (Or.inr h)
      · rw [if_bool_false (Bool.not_eq_true _ ▸ h2)]
        exact ih st

/-! ## Lemmas about the restaurant groups -/

/-- An inner restaurant loop with no matching pattern is the identity. -/
theorem applyRestaurantPats_id {pats : List String} {lab : String} {d : List Char}
    (h : pats.any (rmatchP d) = false) (st : String) :
    applyRestaurantPats pats lab d st = st := by
  induction pats generalizing st with
  | nil => rfl
  | cons q ps ih =>
    simp only [List.any_cons, Bool.or_eq_false_iff] at h
    simp only [applyRestaurantPats, List.foldl_cons, h.1, Bool.false_and,
      if_bool_false rfl]
    exact ih h.2 st

/-- An inner restaurant loop returns its input label or its own label. -/
theorem applyRestaurantPats_eq_or (pats : List String) (lab : String) (d : List Char)
    (st : String) :
    applyRestaurantPats pats lab d st = st ∨ applyRestaurantPats pats lab d st = lab := by
  induction pats generalizing st with
  | nil => exact Or.inl rfl
  | cons q ps ih =>
    simp only [applyRestaurantPats, List.foldl_cons]
    by_cases hm : (rmatchP d q && !(st == "Vending Machine")) = true
    · rw [if_bool_true hm]
      rcases ih lab with h | h
      · exact Or.inr h
      · exact Or.inr h
    · rw [if_bool_false (Bool.not_eq_true _ ▸ hm)]
      exact ih st

/-- The restaurant block with no matching pattern is the identity. -/
theorem applyRestaurantGroups_id {groups : List (List String × String)}
    {d : List Char} (h : (groups.any fun g => g.1.any (rmatchP d)) = false)
    (st : String) : applyRestaurantGroups groups d st = st := by
  induction groups generalizing st with
  | nil => rfl
  | cons g gs ih =>
    simp only [List.any_cons, Bool.or_eq_false_iff] at h
    simp only [applyRestaurantGroups, List.foldl_cons]
    rw [show applyRestaurantPats g.1 g.2 d st = st from applyRestaurantPats_id h.1 st]
    exact ih h.2 st

/-- The restaurant block returns its input label or the label of one of
its groups. -/
theorem applyRestaurantGroups_eq_or (groups : List (List String × String))
    (d : List Char) (st : String) :
    applyRestaurantGroups groups d st = st ∨
      ∃ g ∈ groups, applyRestaurantGroups groups d st = g.2 := by
  induction groups generalizing st with
  | nil => exact Or.inl rfl
  | cons g gs ih =>
    simp only [applyRestaurantGroups, List.foldl_cons]
    rcases applyRestaurantPats_eq_or g.1 g.2 d st with h1 | h1 <;> rw [h1]
    · rcases ih st with h2 | ⟨g', hg', h2⟩
      · exact Or.inl h2
      · exact Or.inr ⟨g', List.mem_cons_of_mem _ hg', h2⟩
    · rcases ih g.2 with h2 | ⟨g', hg', h2⟩
      · exact Or.inr ⟨g, List.mem_cons_self _ _, h2⟩
      · exact Or.inr ⟨g', List.mem_cons_of_mem _ hg', h2⟩

/-! ## The aggregate description-level match of rules after the gas
block -/

/-- True when the description triggers any rule block that runs after
the gas-station block: Walmart, the identity groups, Microsoft, Amazon,
the Google guard pattern, Alipay, halal, the restaurant groups, or the
final vending pass.  For the Google guard only the pattern part is
relevant: when the pattern does not match, the rule cannot fire for any
label state. -/
def laterOverrideMatch (d : List Char) : Bool :=
  walmart_patterns.any (rmatchP d) ||
  (books_patterns.any fun g => g.1.any (rmatchP d)) ||
  (streaming_labels.any fun g => g.1.any (rmatchP d)) ||
  (pro_services_labels.any fun g => g.1.any (rmatchP d)) ||
  (api_labels.any fun g => g.1.any (rmatchP d)) ||
  (transport_labels.any fun g => g.1.any (rmatchP d)) ||
  (clothing_labels.any fun g => g.1.any (rmatchP d)) ||
  (grocery_labels.any fun g => g.1.any (rmatchP d)) ||
  (shopping_labels.any fun g => g.1.any (rmatchP d)) ||
  (services_labels.any fun g => g.1.any (rmatchP d)) ||
  (travel_labels.any fun g => g.1.any (rmatchP d)) ||
  (entertainment_labels.any fun g => g.1.any (rmatchP d)) ||
  rmatchP d "MICROSOFT" ||
  rmatchP d "AMAZON PRIME" ||
  (rmatchP d "AMAZON" && !rmatchP d "PRIME" && !rmatchP d "KINDLE" &&
    !rmatchP d "WEB SERVICES") ||
  rmatchP d "PAYPAL *GOOGLE" ||
  rmatchP d "ALIPAY" ||
  halal_patterns.any (rmatchP d) ||
  (restaurant_labels.any fun g => g.1.any (rmatchP d)) ||
  vending_final_patterns.any (strContains d)

/-! ## Claim C1: protected-category precedence -/

/-- C1.  Protected-category precedence: any transaction whose
description contains (case-insensitive substring) one of the protected
vending-machine patterns — from the opening vending block or the final
reassertion list — is labelled "Vending Machine" by `apply_labels`,
whatever other patterns its description or amount also match.  The
final reassertion pass runs last and each protected pattern literally
contains one of the final-pass patterns. -/
theorem claim1_protected_precedence (desc : String) (amount : Rat)
    (category : String) (p : String)
    (hp : p ∈ vending_patterns ++ vending_final_patterns)
    (hc : strContains (upperChars desc) p = true) :
    labelOf desc amount category = "Vending Machine" := by
  have cover : ∀ q ∈ vending_patterns ++ vending_final_patterns,
      ∃ fp ∈ vending_final_patterns,
        containsSub (upperChars fp) (upperChars q) = true := by decide
  obtain ⟨fp, hfp, hsub⟩ := cover p hp
  have hc' : strContains (upperChars desc) fp = true := strContains_mono hsub hc
  exact applyGroupLit_of_mem hfp hc' _

/-- Witness for C1 at a concrete transaction. -/
theorem claim1_protected_precedence_witness :
    ("AMK MSU POD" ∈ vending_patterns ++ vending_final_patterns ∧
      strContains (upperChars "AMK MSU POD UNION STARKVILLE") "AMK MSU POD" = true) ∧
    labelOf "AMK MSU POD UNION STARKVILLE" 5 "Dining" = "Vending Machine" :=
  ⟨⟨by decide, by decide⟩,
    claim1_protected_precedence "AMK MSU POD UNION STARKVILLE" 5 "Dining"
      "AMK MSU POD" (by decide) (by decide)⟩

/-! ## Claim C2: idempotence of classification -/

/-- C2.  Idempotence: applying `apply_labels` a second time (the label
column it created is overwritten by `df["label"] = df["category"]`, so
re-application acts on the same six data columns) yields exactly the
same labelled collection; the label of every transaction is a function
of `description`, `amount` and `category` only. -/
theorem claim2_classify_idempotent (rs : List RawTx) :
    apply_labels ((apply_labels rs).map LabeledTx.toRawTx) = apply_labels rs := by
  simp only [apply_labels, List.map_map]
  rfl

/-! ## Claim C4: the Google generic-payment guard -/

/-- C4.  The source's guard mask is
`str.contains("PAYPAL *GOOGLE")` with the default `regex=True`, so `*`
quantifies the preceding space: a description containing the literal
merchant text `PAYPAL *GOOGLE` (with its asterisk) is never matched,
and the guard never fires on it even when no prior rule changed the
label.  At the failing input the final label stays the original
category instead of the claimed "Google Services". -/
theorem claim4_google_guard_counterexample :
    strContains (upperChars "PAYPAL *GOOGLE MUSIC") "PAYPAL *GOOGLE" = true ∧
    rmatchP (upperChars "PAYPAL *GOOGLE MUSIC") "PAYPAL *GOOGLE" = false ∧
    labelOf "PAYPAL *GOOGLE MUSIC" 10 "Other" = "Other" := by
  refine ⟨by decide, by decide, ?_⟩
  decide

/-! ## Claim C8: totality and non-emptiness of labels -/

/-- Helper: a Boolean conditional between two non-empty strings is
non-empty. -/
theorem ite_ne_empty {b : Bool} {x y : String} (hx : x ≠ "") (hy : y ≠ "") :
    (if b then x else y) ≠ "" := by
  by_cases h : b = true
  · rw [if_bool_true h]; exact hx
  · rw [if_bool_false (Bool.not_eq_true _ ▸ h)]; exact hy

/-- Helper: a group loop with a non-empty label preserves
non-emptiness. -/
theorem applyGroupR_ne {pats : List String} {lab : String} {d : List Char}
    {st : String} (hlab : lab ≠ "") (hst : st ≠ "") :
    applyGroupR pats lab d st ≠ "" := by
  rcases applyGroupR_eq_or pats lab d st with h | h <;> rw [h] <;> assumption

/-- Helper: the literal-containment loop with a non-empty label
preserves non-emptiness. -/
theorem applyGroupLit_ne {pats : List String} {lab : String} {d : List Char}
    {st : String} (hlab : lab ≠ "") (hst : st ≠ "") :
    applyGroupLit pats lab d st ≠ "" := by
  rcases applyGroupLit_eq_or pats lab d st with h | h <;> rw [h] <;> assumption

/-- Helper: identity groups with non-empty labels preserve
non-emptiness. -/
theorem applyLabelGroups_ne {groups : List (List String × String)} {d : List Char}
    {st : String} (hgs : ∀ g ∈ groups, g.2 ≠ "") (hst : st ≠ "") :
    applyLabelGroups groups d st ≠ "" := by
  rcases applyLabelGroups_eq_or groups d st with h | ⟨g, hg, h⟩ <;> rw [h]
  · exact hst
  · exact hgs g hg

/-- Helper: the gas loop preserves non-emptiness. -/
theorem applyGasGroup_ne {pats : List String} {amount : Rat} {d : List Char}
    {st : String} (hst : st ≠ "") : applyGasGroup pats amount d st ≠ "" := by
  rcases applyGasGroup_eq_or pats amount d st with h | h | h <;> rw [h]
  · exact hst
  · decide
  · decide

/-- Helper: the restaurant block preserves non-emptiness. -/
theorem applyRestaurantGroups_ne {groups : List (List String × String)}
    {d : List Char} {st : String} (hgs : ∀ g ∈ groups, g.2 ≠ "") (hst : st ≠ "") :
    applyRestaurantGroups groups d st ≠ "" := by
  rcases applyRestaurantGroups_eq_or groups d st with h | ⟨g, hg, h⟩ <;> rw [h]
  · exact hst
  · exact hgs g hg

/-- C8, counterexample.  A transaction whose description matches no
rule and whose original category is the empty string keeps the empty
string as its label: classification is total but does not guarantee a
non-empty label. -/
theorem claim8_totality_counterexample : labelOf "UNKNOWN" 1 "" = "" := by
  decide

/-- C8, amended.  After `apply_labels` every label equals either a rule
label (all of which are non-empty string constants) or the original
category; hence the label is non-empty whenever the original category
is.  The unconditional non-emptiness of the claim fails exactly when
the source category is empty (see the counterexample). -/
theorem claim8_label_nonempty (desc : String) (amount : Rat) (category : String)
    (hcat : category ≠ "") : labelOf desc amount category ≠ "" := by
  refine applyGroupLit_ne (by decide) ?_
  refine applyRestaurantGroups_ne (by decide) ?_
  refine applyGroupR_ne (by decide) ?_
  refine ite_ne_empty (by decide) ?_
  refine ite_ne_empty (by decide) ?_
  refine ite_ne_empty (by decide) ?_
  refine ite_ne_empty (by decide) ?_
  refine ite_ne_empty (by decide) ?_
  refine applyLabelGroups_ne (by decide) ?_
  refine applyLabelGroups_ne (by decide) ?_
  refine applyLabelGroups_ne (by decide) ?_
  refine applyLabelGroups_ne (by decide) ?_
  refine applyLabelGroups_ne (by decide) ?_
  refine applyLabelGroups_ne (by decide) ?_
  refine applyLabelGroups_ne (by decide) ?_
  refine applyLabelGroups_ne (by decide) ?_
  refine applyLabelGroups_ne (by decide) ?_
  refine applyLabelGroups_ne (by decide) ?_
  refine applyLabelGroups_ne (by decide) ?_
  refine applyGroupR_ne (by decide) ?_
  refine applyGasGroup_ne ?_
  refine ite_ne_empty (by decide) ?_
  exact applyGroupR_ne (by decide) hcat

/-- Witness for the amended C8 at a concrete transaction. -/
theorem claim8_label_nonempty_witness :
    "Dining" ≠ "" ∧ labelOf "UNKNOWN" 1 "Dining" ≠ "" :=
  ⟨by decide, claim8_label_nonempty "UNKNOWN" 1 "Dining" (by decide)⟩

/-! ## Claim C3: the threshold split at 30 -/

/-- C3.  For a transaction whose description contains a gas-station
pattern and matches no rule block that runs after the gas block, the
amount 29.99 yields "Gas Station Indiscretion" and the amount 30.00
yields "Gasoline": the boundary 30 falls on the fuel side
(`amount >= 30`). -/
theorem claim3_threshold_split (desc : String) (category : String) (p : String)
    (hp : p ∈ gas_station_patterns)
    (hc : strContains (upperChars desc) p = true)
    (hl : laterOverrideMatch (upperChars desc) = false) :
    labelOf desc ((2999 : Rat) / 100) category = "Gas Station Indiscretion" ∧
    labelOf desc 30 category = "Gasoline" := by
  have hlits : ∀ q ∈ gas_station_patterns,
      toToks (upperChars q) = (upperChars q).map RTok.lit := by decide
  have hm : rmatchP (upperChars desc) p = true := by
    rw [rmatchP_eq_strContains (hlits p hp)]
    exact hc
  simp only [laterOverrideMatch, Bool.or_eq_false_iff] at hl
  obtain ⟨⟨⟨⟨⟨⟨⟨⟨⟨⟨⟨⟨⟨⟨⟨⟨⟨⟨⟨hwal, hbooks⟩, hstream⟩, hpro⟩, hapi⟩, htrans⟩, hcloth⟩, hgroc⟩, hshop⟩, hserv⟩, htrav⟩, hent⟩, hms⟩, hapr⟩, hamz⟩, hpg⟩, hali⟩, hhal⟩, hrest⟩, hfin⟩ := hl
  constructor
  · simp only [labelOf]
    rw [applyGroupLit_id hfin, applyRestaurantGroups_id hrest, applyGroupR_id hhal,
      hali, if_bool_false rfl, hpg, Bool.false_and, if_bool_false rfl,
      hamz, if_bool_false rfl, hapr, if_bool_false rfl, hms, if_bool_false rfl,
      applyLabelGroups_id hent, applyLabelGroups_id htrav, applyLabelGroups_id hserv,
      applyLabelGroups_id hshop, applyLabelGroups_id hgroc, applyLabelGroups_id hcloth,
      applyLabelGroups_id htrans, applyLabelGroups_id hapi, applyLabelGroups_id hpro,
      applyLabelGroups_id hstream, applyLabelGroups_id hbooks, applyGroupR_id hwal]
    exact applyGasGroup_of_mem_lt hp hm (by norm_num) _
  · simp only [labelOf]
    rw [applyGroupLit_id hfin, applyRestaurantGroups_id hrest, applyGroupR_id hhal,
      hali, if_bool_false rfl, hpg, Bool.false_and, if_bool_false rfl,
      hamz, if_bool_false rfl, hapr, if_bool_false rfl, hms, if_bool_false rfl,
      applyLabelGroups_id hent, applyLabelGroups_id htrav, applyLabelGroups_id hserv,
      applyLabelGroups_id hshop, applyLabelGroups_id hgroc, applyLabelGroups_id hcloth,
      applyLabelGroups_id htrans, applyLabelGroups_id hapi, applyLabelGroups_id hpro,
      applyLabelGroups_id hstream, applyLabelGroups_id hbooks, applyGroupR_id hwal]
    exact applyGasGroup_of_mem_ge hp hm (by norm_num) _

/-- Witness for C3 at a concrete gas-station transaction. -/
theorem claim3_threshold_split_witness :
    ("SHELL" ∈ gas_station_patterns ∧
      strContains (upperChars "SHELL OIL 1234 STARKVILLE") "SHELL" = true ∧
      laterOverrideMatch (upperChars "SHELL OIL 1234 STARKVILLE") = false) ∧
    (labelOf "SHELL OIL 1234 STARKVILLE" ((2999 : Rat) / 100) "Gas" =
        "Gas Station Indiscretion" ∧
      labelOf "SHELL OIL 1234 STARKVILLE" 30 "Gas" = "Gasoline") :=
  ⟨⟨by decide, by decide, by decide⟩,
    claim3_threshold_split "SHELL OIL 1234 STARKVILLE" "Gas" "SHELL"
      (by decide) (by decide) (by decide)⟩

/-! ## Claim C9: amount positivity across the adapters -/

/-- A CapitalOne row with a present but negative debit value: it
passes the `notna` filter of `load_capital_one` untouched. -/
def capBadRow : CapRow :=
  { transactionDate := "2025-01-01", postedDate := "2025-01-02",
    description := "REFUND REVERSAL", category := "Other",
    debit := some (-5), credit := none }

/-- C9, counterexample.  `load_capital_one` filters only on
`df["Debit"].notna()`, so a present negative debit flows into the
merged collection with a non-positive amount; `load_chase` applies no
filter at all.  Only `load_discover` enforces `Amount > 0`. -/
theorem claim9_positivity_counterexample :
    (load_capital_one "CapitalOne_test.csv" [capBadRow]).map RawTx.amount =
      [(-5 : Rat)] ∧ ¬ (0 < (-5 : Rat)) := by
  constructor
  · rfl
  · norm_num

/-- C9, amended.  Every transaction of the merged, labelled collection
has a strictly positive amount provided the CapitalOne rows carry only
positive present debit values and the Chase extraction rows carry only
positive amounts; the Discover adapter needs no assumption because its
filter `Amount > 0` enforces positivity itself. -/
theorem claim9_amount_positivity (capName discName : String) (capRows : List CapRow)
    (discRows : List DiscRow) (chaseRows : List ChaseRow)
    (hcap : ∀ r ∈ capRows, 0 < r.debit.getD 1)
    (hchase : ∀ r ∈ chaseRows, 0 < r.amount) :
    ∀ t ∈ merge_all_csvs capName discName capRows discRows chaseRows,
      0 < t.amount := by
  intro t ht
  simp only [merge_all_csvs, apply_labels, List.mem_map, List.mem_append] at ht
  obtain ⟨r, hr, rfl⟩ := ht
  show 0 < r.amount
  rcases hr with (hr | hr) | hr
  · simp only [load_capital_one, List.mem_map, List.mem_filter] at hr
    obtain ⟨c, ⟨hc, hdeb⟩, rfl⟩ := hr
    cases hdc : c.debit with
    | none => rw [hdc] at hdeb; cases hdeb
    | some v =>
      have hv := hcap c hc
      rw [hdc] at hv
      simpa using hv
  · simp only [load_discover, List.mem_map, List.mem_filter] at hr
    obtain ⟨c, ⟨⟨hc, hpos⟩, hcat⟩, rfl⟩ := hr
    exact of_decide_eq_true hpos
  · simp only [load_chase, List.mem_map] at hr
    obtain ⟨c, hc, rfl⟩ := hr
    exact hchase c hc

/-- A well-formed CapitalOne row. -/
def capOkRow : CapRow :=
  { transactionDate := "2025-01-01", postedDate := "2025-01-02",
    description := "STORE A", category := "Other", debit := some 3, credit := none }

/-- A well-formed Discover row. -/
def discOkRow : DiscRow :=
  { transDate := "01/02/2025", postDate := "01/03/2025",
    description := "STORE B", amount := 2, category := "Dining" }

/-- A well-formed Chase extraction row. -/
def chaseOkRow : ChaseRow :=
  { date := "2025-01-03", description := "STORE C", amount := 1,
    category := "Other", card := "Chase-2040", source := "x.pdf" }

/-- Witness for the amended C9 at a concrete merged batch. -/
theorem claim9_amount_positivity_witness :
    ((∀ r ∈ [capOkRow], 0 < r.debit.getD 1) ∧
      (∀ r ∈ [chaseOkRow], 0 < r.amount)) ∧
    ∀ t ∈ merge_all_csvs "a.csv" "b.csv" [capOkRow] [discOkRow] [chaseOkRow],
      0 < t.amount :=
  ⟨⟨by decide, by decide⟩,
    claim9_amount_positivity "a.csv" "b.csv" [capOkRow] [discOkRow] [chaseOkRow]
      (by decide) (by decide)⟩

/-! ## Claim C10: the no-encoding-succeeded branch is unreachable -/

/-- C10.  Whatever the `utf-8` and `cp1252` codecs do on the input
bytes, the fallback loop reaches `latin-1`, which decodes every byte
sequence, so each adapter's
`raise ValueError("Could not read ... with any encoding")` branch can
never execute. -/
theorem claim10_encoding_fallback_unreachable
    (u8 cp : List (Fin 256) → Option (List Char))
    (pc : List Char → List CapRow) (pd : List Char → List DiscRow)
    (pch : List Char → List ChaseRow) (capName discName chaseName : String)
    (bs : List (Fin 256)) :
    isOkB (load_capital_one_file u8 cp pc capName bs) = true ∧
    isOkB (load_discover_file u8 cp pd discName bs) = true ∧
    isOkB (load_chase_file u8 cp pch chaseName bs) = true := by
  have key : ∃ t, read_with_encodings u8 cp bs = some t := by
    rw [read_with_encodings, encoding_candidates]
    cases h : u8 bs with
    | some t => exact ⟨t, by simp [try_encodings, decode_with, h]⟩
    | none =>
      exact ⟨bs.map fun b => Char.ofNat b.val,
        by simp [try_encodings, decode_with, h, latin1_decode]⟩
  obtain ⟨t, ht⟩ := key
  refine ⟨?_, ?_, ?_⟩ <;>
    simp [load_capital_one_file, load_discover_file, load_chase_file, ht, isOkB]

/-! ## Claim C6: the repair/retry ladder -/

/-- C6.  The extraction ladder makes at most two total attempts.  The
result of `extract_transactions_from_pdf` starting at retry count 0 is
fully described by the first two responses: within each attempt the
text is parsed directly and, on failure, its repaired form is parsed;
if both parses of the retry attempt also fail the result is the empty
list — never an exception, never a partial result, and no third
response is ever consulted. -/
theorem claim6_retry_ladder {R : Type} (parseJ : List Char → Option (List R))
    (respond : Nat → List Char) :
    extract_transactions_from_pdf parseJ respond 0 =
      match attemptParse parseJ (respond 0) with
      | some ts => ts
      | none =>
        match attemptParse parseJ (respond 1) with
        | some ts => ts
        | none => [] := by
  rw [extract_transactions_from_pdf]
  simp only [attemptParse]
  cases h0 : parseJ (cleanup_response (respond 0)) with
  | some ts => simp [h0]
  | none =>
    cases h1 : parseJ (try_fix_truncated_json (cleanup_response (respond 0))) with
    | some ts => simp [h0, h1]
    | none =>
      simp only [h0, h1]
      rw [dif_pos (by norm_num)]
      rw [extract_transactions_from_pdf]
      cases h2 : parseJ (cleanup_response (respond 1)) with
      | some ts => simp [h2]
      | none =>
        cases h3 : parseJ (try_fix_truncated_json (cleanup_response (respond 1))) with
        | some ts => simp [h2, h3]
        | none =>
          simp only [h2, h3]
          rw [dif_neg (by norm_num)]

/-! ## Claim C7: repairing the truncated example -/

/-- The truncated extraction output of the claim: one open array, one
open object, and a string cut off mid-value. -/
def c7_input : List Char :=
  "[\x7b\x22date\x22:\x222025-01-01\x22,\x22description\x22:\x22X".data

/-- The repaired text: the string closed by an appended quote, then the
object and the array closed by appended brackets. -/
def c7_expected : List Char :=
  "[\x7b\x22date\x22:\x222025-01-01\x22,\x22description\x22:\x22X\x22\x7d]".data

/-- C7.  `try_fix_truncated_json` turns the truncated example into
exactly the expected closed text, and that text parses as well-formed
JSON holding exactly one record with the two string fields of the
truncated original. -/
theorem claim7_repair_truncated_example :
    try_fix_truncated_json c7_input = c7_expected ∧
    parseJson c7_expected =
      some (Json.jarr [Json.jobj
        [("date".data, Json.jstr "2025-01-01".data),
         ("description".data, Json.jstr "X".data)]]) := by
  exact ⟨rfl, rfl⟩
